import Mathlib

/-!
Verification development for the NymNodeInstall repository
(`install.py`, `nym_installer.py`, `nym_updater.py`).

The Python sources are shallowly embedded: pure string processing becomes
functions over `List Char` / `String`, stateful orchestration becomes
functions from explicit oracles (outcomes of external commands, operator
answers) to event traces and results, and Python exceptions become
`Except`/`Option` values.  Machine floats produced by the balance parsers
hold values of the form `n / 1000000` with `n : ℤ` well below 2^53, so they
are represented exactly by `ℚ`.
-/

namespace NymNodeInstall

/-! ## Python string primitives (ASCII fragment used by the sources) -/

/-- `Char.toLower` on ASCII letters, as used by Python's `str.lower()` on the
ASCII operator answers the installers compare against (`"y"`, `"yes"`). -/
def pyLowerChar (c : Char) : Char := c.toLower

/-- Python `str.lower()` (ASCII fragment). -/
def pyLower (l : List Char) : List Char := l.map pyLowerChar

/-- Whitespace stripped by Python `str.strip()` (ASCII fragment: space, tab,
newline, carriage return — exactly Lean's `Char.isWhitespace`). -/
def wsp (c : Char) : Bool := c.isWhitespace

/-- Python `str.strip()`: drop whitespace from both ends. -/
def trimL (l : List Char) : List Char :=
  ((l.dropWhile wsp).reverse.dropWhile wsp).reverse

/-- Boolean "pattern is a prefix of the list" check. -/
def pfx : List Char → List Char → Bool
  | [], _ => true
  | _ :: _, [] => false
  | a :: as, b :: bs => a == b && pfx as bs

/-- Python `pat in s` substring test. -/
def containsB (pat : List Char) : List Char → Bool
  | [] => pat.isEmpty
  | c :: cs => pfx pat (c :: cs) || containsB pat cs

/-- Python `s.startswith(pat)` on strings. -/
def pyStartsWith (s pat : String) : Bool := pfx pat.data s.data

/-- Python `s.lower()` on strings. -/
def pyLowerStr (s : String) : String := String.mk (pyLower s.data)

/-- Python `s.strip()` on strings. -/
def pyStrip (s : String) : String := String.mk (trimL s.data)

/-- `reinstall.lower().startswith("y")` — the affirmative-answer test used by
the installer prompts (`nym_installer.py:881`, `install.py:973`). -/
def affirmStartsY (s : String) : Bool := pyStartsWith (pyLowerStr s) "y"

/-- `retry.lower() in ["y", "yes"]` — the affirmative-retry test of
`WalletManager.wait_for_funding` (`nym_installer.py:797-798`). -/
def affirmYesList (s : String) : Bool :=
  pyLowerStr s == "y" || pyLowerStr s == "yes"

/-! ## C8: CommandRunner elevation behavior

`install.py:169-185` (`CommandRunner.run`), `nym_installer.py:208-224`
(`CommandRunner.run`), `install.py:187-206` (`CommandRunner.run_with_progress`).
Each is modelled as a function of the `sudo` request flag, whether a `sudo`
wrapper exists on the host (`shutil.which("sudo")`), and the argv; the result
says whether the call raises before executing anything, or executes some argv. -/

/-- Observable behavior of one `CommandRunner` call. -/
inductive RunBehavior where
  | raisesSudoUnavailable
  | executes (argv : List String)
  deriving DecidableEq

/-- `install.py` `CommandRunner.run`: prepends `sudo` when requested and
available; when requested and unavailable it logs an error and raises
`RuntimeError("sudo not available")` before running anything. -/
def installCommandRun (sudoReq sudoAvailable : Bool) (cmd : List String) : RunBehavior :=
  if sudoReq && sudoAvailable then .executes ("sudo" :: cmd)
  else if sudoReq then .raisesSudoUnavailable
  else .executes cmd

/-- `nym_installer.py` `CommandRunner.run`: prepends `sudo` only when
requested *and* available; otherwise it falls through and executes the
command as-is — there is no error branch for a missing wrapper. -/
def nymCommandRun (sudoReq sudoAvailable : Bool) (cmd : List String) : RunBehavior :=
  if sudoReq && sudoAvailable then .executes ("sudo" :: cmd)
  else .executes cmd

/-- `install.py` `CommandRunner.run_with_progress`: same elevation logic as
`nymCommandRun` — no error branch for a missing wrapper. -/
def installRunWithProgress (sudoReq sudoAvailable : Bool) (cmd : List String) : RunBehavior :=
  if sudoReq && sudoAvailable then .executes ("sudo" :: cmd)
  else .executes cmd

/-! ## C5 / C7: nym_updater.py -/

/-- First line of `output` (split at newlines) starting with
`"Build Version:"`, if any. -/
def splitAtNewlines : List Char → List (List Char)
  | [] => [[]]
  | c :: cs =>
    if c == '\n' then [] :: splitAtNewlines cs
    else
      match splitAtNewlines cs with
      | [] => [[c]]
      | p :: ps => (c :: p) :: ps

/-- Join lines with newline separators — the inverse of `splitAtNewlines`
on newline-free lines, used to state properties about line-oriented
parsers. -/
def joinLines : List (List Char) → List Char
  | [] => []
  | [l] => l
  | l :: ls => l ++ '\n' :: joinLines ls

/-- The label scanned for by `get_build_version` (`nym_updater.py:43`):
the characters of `"Build Version:"`. -/
def buildVersionLabel : List Char :=
  ['B', 'u', 'i', 'l', 'd', ' ', 'V', 'e', 'r', 's', 'i', 'o', 'n', ':']

/-- Suffix after the first occurrence of `pat`, if `pat` occurs
(Python `l.split(pat, 1)[1]`). -/
def afterFirst (pat : List Char) : List Char → Option (List Char)
  | [] => none
  | c :: cs =>
    if pfx pat (c :: cs) then some ((c :: cs).drop pat.length)
    else afterFirst pat cs

/-- `line.split(":", 1)[1].strip()` applied to a line that starts with
`"Build Version:"` (`nym_updater.py:44`): the first `':'` is the label's. -/
def afterFirstColonStripped (l : List Char) : List Char :=
  trimL ((afterFirst [':'] l).getD [])

/-- `get_build_version` (`nym_updater.py:35-49`): `run_command` output is
`none` on failure; a falsy (empty) output also yields `none`; otherwise scan
lines for one starting with `"Build Version:"` and return the trailing text,
else `none` (logged as a warning, never raised). -/
def getBuildVersion (output : Option String) : Option String :=
  match output with
  | none => none
  | some s =>
    if s.data.isEmpty then none
    else
      match (splitAtNewlines s.data).find? (fun l => pfx buildVersionLabel l) with
      | some l => some (String.mk (afterFirstColonStripped l))
      | none => none

/-- Python `a < b` on strings: lexicographic by code point. -/
def pyStrLt : List Char → List Char → Bool
  | [], [] => false
  | [], _ :: _ => true
  | _ :: _, [] => false
  | a :: as, b :: bs =>
    if a < b then true
    else if a = b then pyStrLt as bs
    else false

/-- Python `a < b` on `String`. -/
def pyStrLtS (a b : String) : Bool := pyStrLt a.data b.data

/-- Oracle inputs for one run of `nym_updater.main`. -/
structure UpdaterEnv where
  /-- `find_current_binary()` result. -/
  binaryPath : Option String
  /-- stdout of `<current> --version` (`run_command`), `none` = command failed. -/
  curVersionOut : Option String
  /-- `get_latest_release()` result: `(tag, url)` or failure. -/
  releaseInfo : Option (String × String)
  /-- whether `download_binary` succeeded. -/
  downloadOk : Bool
  /-- stdout of `<candidate> --version`. -/
  newVersionOut : Option String
  /-- the `-y` flag. -/
  autoYes : Bool
  /-- raw operator answer to "Do you want to update?". -/
  updResponse : String
  /-- whether `update_binary` succeeded. -/
  updateOk : Bool

/-- Observable outcome of one run of `nym_updater.main`. -/
structure UpdaterResult where
  /-- process exit code (1 for every `sys.exit(1)`, 0 for a normal return). -/
  exitCode : Nat
  /-- whether `update_binary` (the swap) was invoked at all. -/
  swapInvoked : Bool
  /-- "Downloaded version is older?" warning printed. -/
  warnedOlder : Bool
  /-- "Already up to date" printed. -/
  reportedUpToDate : Bool
  deriving DecidableEq

/-- `nym_updater.main` (`nym_updater.py:130-221`), from locating the binary
through the compare-and-swap decision.  Version comparison is Python string
comparison (`new_version > current_version`), i.e. lexicographic by code
point, which is Lean's `String` order.  A restart failure after a successful
swap is only reported, so the run still exits 0. -/
def updaterMain (env : UpdaterEnv) : UpdaterResult :=
  match env.binaryPath with
  | none => ⟨1, false, false, false⟩
  | some _ =>
    match getBuildVersion env.curVersionOut with
    | none => ⟨1, false, false, false⟩
    | some curV =>
      match env.releaseInfo with
      | none => ⟨1, false, false, false⟩
      | some _ =>
        if !env.downloadOk then ⟨1, false, false, false⟩
        else
          match getBuildVersion env.newVersionOut with
          | none => ⟨1, false, false, false⟩
          | some newV =>
            if pyStrLtS curV newV then
              let resp := if env.autoYes then "y" else pyLowerStr (pyStrip env.updResponse)
              if resp == "y" then
                if env.updateOk then ⟨0, true, false, false⟩
                else ⟨1, true, false, false⟩
              else ⟨0, false, false, false⟩
            else if newV == curV then ⟨0, false, false, true⟩
            else ⟨0, false, true, false⟩

/-! ## C6: update_binary command order (`nym_updater.py:110-127`) -/

/-- The three elevated commands issued by `update_binary`. -/
inductive UpdCmd where
  | cpBackup
  | cpOverwrite
  | chmodLive
  deriving DecidableEq

/-- `update_binary`: issues `sudo cp current backup`, then
`sudo cp new current`, then `sudo chmod 755 current`, each with
`check=True`; the first failing command raises into the `except`, which
returns `False`.  The trace records the commands issued, in order. -/
def updateBinaryModel (backupOk overwriteOk chmodOk : Bool) :
    List UpdCmd × Bool :=
  if !backupOk then ([.cpBackup], false)
  else if !overwriteOk then ([.cpBackup, .cpOverwrite], false)
  else if !chmodOk then ([.cpBackup, .cpOverwrite, .chmodLive], false)
  else ([.cpBackup, .cpOverwrite, .chmodLive], true)

/-! ## C2: WalletManager.wait_for_funding (`nym_installer.py:782-802`)

The loop is driven by two operator-visible streams: the successive
`check_balance` results (`none` = the query raised, `some v` = the parsed
NYM balance) and the successive raw answers to the "Check again? (y/N)"
prompt.  The model recurses over the response stream, so it yields `none`
when the modelled streams are exhausted before the loop exits; the result
carries the loop outcome, the number of balance polls performed, and the
list of `time.sleep` durations in seconds, in order. -/

/-- `MIN_BALANCE = 101.0` (`nym_installer.py:745`). -/
def minBalanceNym : ℚ := 101

/-- `balance is not None and balance >= WalletManager.MIN_BALANCE`
(`nym_installer.py:788`). -/
def sufficientPoll (b : Option ℚ) : Bool :=
  match b with
  | some v => decide (minBalanceNym ≤ v)
  | none => false

/-- `wait_for_funding`: return success as soon as a poll reports a balance
`≥ 101`; otherwise prompt; a non-affirmative answer returns failure; an
affirmative answer sleeps 10 seconds and re-queries. -/
def waitForFunding : List (Option ℚ) → List String → Option (Bool × ℕ × List ℕ)
  | [], _ => none
  | b :: _, [] =>
    if sufficientPoll b then some (true, 1, []) else none
  | b :: bs, a :: rest =>
    if sufficientPoll b then
      some (true, 1, [])
    else if affirmYesList a then
      match waitForFunding bs rest with
      | some (r, polls, sleeps) => some (r, polls + 1, 10 :: sleeps)
      | none => none
    else some (false, 1, [])

/-- `NymNodeInstaller._setup_wallet` (`nym_installer.py:965-967`): a `False`
return from `wait_for_funding` makes the caller print an error and
`sys.exit(1)`; a `True` return continues (`none` = no exit here). -/
def setupWalletFundingExit (fundingOk : Bool) : Option ℕ :=
  if fundingOk then none else some 1

/-! ## C1 / C9: NymNodeInstaller._install / run (`nym_installer.py:813-919`)

The installation sequence is modelled as a function from an oracle (the
success of each external step, the existing-install probe, and the raw
reinstall answer) to the ordered trace of events it performs plus its
boolean result.  `run` (`nym_installer.py:813-832`) maps a `False` result
of `_install` to `Logger.error("Installation failed"); sys.exit(1)`. -/

/-- Events of one `_install` run, in program order. -/
inductive InstallEvent where
  | sysUpdate
  | deps
  | reinstallPrompt
  | binaryDownload
  | modeSelection
  | firewallStep
  | firewallWarning
  | nodeInit
  | descriptionWrite
  | serviceSetup
  | successMsg
  deriving DecidableEq

/-- Oracle for one `_install` run. -/
structure InstallOracle where
  /-- `--no-update` flag: `steps.system_update = not skip_update`. -/
  skipUpdate : Bool
  /-- `SystemManager.update_system()` result. -/
  sysUpdateOk : Bool
  /-- `SystemManager.install_packages([...])` result. -/
  depsOk : Bool
  /-- `check_existing_installation()` result. -/
  existingInstall : Bool
  /-- raw operator answer to `Reinstall? (y/N):`. -/
  reinstallAnswer : String
  /-- `download_binary()` result. -/
  downloadOk : Bool
  /-- `NetworkManager.configure_firewall(...)` result. -/
  firewallOk : Bool
  /-- `initialize_node()` result. -/
  initOk : Bool
  /-- `SystemManager.create_systemd_service(...)` result. -/
  serviceOk : Bool

/-- `_install` (`nym_installer.py:852-919`): the ordered steps, their
failure handling (every failing step returns `False` immediately, except
the firewall step which only logs a warning), and the reinstall gate
between the dependency and download steps. -/
def installSteps (o : InstallOracle) : List InstallEvent × Bool :=
  let t0 : List InstallEvent := if o.skipUpdate then [] else [.sysUpdate]
  if !o.skipUpdate && !o.sysUpdateOk then (t0, false)
  else
    let t1 := t0 ++ [.deps]
    if !o.depsOk then (t1, false)
    else if o.existingInstall && !(affirmStartsY o.reinstallAnswer) then
      (t1 ++ [.reinstallPrompt], false)
    else
      let t2 := t1 ++ (if o.existingInstall then [.reinstallPrompt] else [])
      let t3 := t2 ++ [.binaryDownload]
      if !o.downloadOk then (t3, false)
      else
        let t4 := t3 ++ [.modeSelection, .firewallStep]
        let t5 := t4 ++ (if o.firewallOk then [] else [.firewallWarning])
        let t6 := t5 ++ [.nodeInit]
        if !o.initOk then (t6, false)
        else
          let t7 := t6 ++ [.descriptionWrite, .serviceSetup]
          if !o.serviceOk then (t7, false)
          else (t7 ++ [.successMsg], true)

/-- `run` (`nym_installer.py:813-832`): exit code of the whole process.
`postInstallExit` abstracts the exit code of the post-install phase
(wallet funding etc.) when `_install` succeeds. -/
def installerRunExitCode (o : InstallOracle) (postInstallExit : ℕ) : ℕ :=
  if (installSteps o).2 then postInstallExit else 1

/-! ## Python runtime values for the balance parsers (C3 / C10) -/

/-- Python runtime errors distinguished by the embedding. -/
inductive PyErr where
  | attributeError
  | typeError
  | keyError
  | valueError
  deriving DecidableEq

/-- A fragment of Python's runtime values: `None`, `bool`, `int`, `float`
(balances are dyadic rationals `n / 1000000`, represented exactly),
`str`, `list`, and `dict` with string keys. -/
inductive PyVal where
  | vNone
  | vBool (b : Bool)
  | vInt (n : ℤ)
  | vFloat (q : ℚ)
  | vStr (s : String)
  | vList (xs : List PyVal)
  | vDict (fields : List (String × PyVal))

/-- Python truthiness (`if x:`). -/
def pyTruthy : PyVal → Bool
  | .vNone => false
  | .vBool b => b
  | .vInt n => !(n == 0)
  | .vFloat q => !(q == 0)
  | .vStr s => !(s == "")
  | .vList xs => !xs.isEmpty
  | .vDict fs => !fs.isEmpty

/-- Python `x.get(key, default)`: only `dict` has a `.get` method; on any
other value the attribute lookup raises `AttributeError`. -/
def pyDictGet (v : PyVal) (key : String) (dflt : PyVal) : Except PyErr PyVal :=
  match v with
  | .vDict fs => .ok ((List.lookup key fs).getD dflt)
  | _ => .error .attributeError

/-- Python `x == "lit"` for a string literal: strings compare by value,
any other type compares unequal (no error). -/
def pyEqStr (v : PyVal) (s : String) : Bool :=
  match v with
  | .vStr t => t == s
  | _ => false

/-- Python `key in x` for a string `key`: dict membership, list membership,
substring test on `str`; iteration over anything else raises `TypeError`. -/
def pyContainsKey (v : PyVal) (key : String) : Except PyErr Bool :=
  match v with
  | .vDict fs => .ok (fs.any (fun p => p.1 == key))
  | .vList xs => .ok (xs.any (fun x => pyEqStr x key))
  | .vStr s => .ok (containsB key.data s.data)
  | _ => .error .typeError

/-- Python `x[key]` for a string `key`: dict lookup (`KeyError` if absent);
anything else raises `TypeError`. -/
def pySubscript (v : PyVal) (key : String) : Except PyErr PyVal :=
  match v with
  | .vDict fs =>
    match List.lookup key fs with
    | some x => .ok x
    | none => .error .keyError
  | _ => .error .typeError

/-- Python `for x in v`: lists iterate elements, strings iterate their
characters, dicts iterate their keys; other values raise `TypeError`. -/
def pyIter (v : PyVal) : Except PyErr (List PyVal) :=
  match v with
  | .vList xs => .ok xs
  | .vStr s => .ok (s.data.map (fun c => .vStr (String.mk [c])))
  | .vDict fs => .ok (fs.map (fun p => .vStr p.1))
  | _ => .error .typeError

/-- Python `int(s)` on a string (base 10): strip whitespace, optional sign,
then a nonempty digit run; anything else raises `ValueError`. -/
def parseIntDigits (ds : List Char) : Except PyErr ℤ :=
  if ds.isEmpty || !ds.all Char.isDigit then .error .valueError
  else .ok (ds.foldl (fun a c => 10 * a + ((c.toNat : ℤ) - 48)) 0)

/-- Python `int(x)`: ints and bools pass through, floats truncate toward
zero, strings parse in base 10, everything else raises `TypeError`. -/
def pyToInt (v : PyVal) : Except PyErr ℤ :=
  match v with
  | .vInt n => .ok n
  | .vBool b => .ok (if b then 1 else 0)
  | .vFloat q => .ok (if 0 ≤ q then ⌊q⌋ else ⌈q⌉)
  | .vStr s =>
    match trimL s.data with
    | '+' :: ds => parseIntDigits ds
    | '-' :: ds => (parseIntDigits ds).map Int.neg
    | ds => parseIntDigits ds
  | _ => .error .typeError

/-- The coin-scanning loop of the balance parsers: first coin whose
`denom` equals `"unym"` gets its `amount` (with default `dflt`) converted
by `int(...)`; no match leaves the accumulator at `0`. -/
def scanCoins (dflt : PyVal) : List PyVal → Except PyErr ℤ
  | [] => .ok 0
  | coin :: rest =>
    match pyDictGet coin "denom" .vNone with
    | .error e => .error e
    | .ok d =>
      if pyEqStr d "unym" then
        match pyDictGet coin "amount" dflt with
        | .error e => .error e
        | .ok a => pyToInt a
      else scanCoins dflt rest

/-- Body of `WalletManager.check_balance` (`nym_installer.py:747-780`)
after the HTTP+JSON step produced `data`: iterate `data.get("balances", [])`
looking for the `"unym"` coin (amount default `"0"`), divide by `1_000_000`. -/
def nymCheckBalanceBody (data : PyVal) : Except PyErr ℚ :=
  match pyDictGet data "balances" (.vList []) with
  | .error e => .error e
  | .ok bl =>
    match pyIter bl with
    | .error e => .error e
    | .ok xs =>
      match scanCoins (.vStr "0") xs with
      | .error e => .error e
      | .ok u => .ok ((u : ℚ) / 1000000)

/-- `WalletManager.check_balance`: the whole body runs inside
`try/except Exception`, so every raised error becomes a `None` return and
nothing propagates to the caller. -/
def nymCheckBalance (data : PyVal) : Option ℚ :=
  match nymCheckBalanceBody data with
  | .ok q => some q
  | .error _ => none

/-- Body of `NymNodeManager.check_balance` (`install.py:732-768`) after the
HTTP+JSON step produced `data`: `if "balance" in data and "amount" in
data["balance"]` take `int(data["balance"]["amount"])` else `0`, divide by
`1_000_000`, and return the resulting *float*. -/
def installCheckBalanceBody (data : PyVal) : Except PyErr ℚ :=
  match pyContainsKey data "balance" with
  | .error e => .error e
  | .ok false => .ok (((0 : ℤ) : ℚ) / 1000000)
  | .ok true =>
    match pySubscript data "balance" with
    | .error e => .error e
    | .ok sub =>
      match pyContainsKey sub "amount" with
      | .error e => .error e
      | .ok false => .ok (((0 : ℤ) : ℚ) / 1000000)
      | .ok true =>
        match pySubscript data "balance" with
        | .error e => .error e
        | .ok sub2 =>
          match pySubscript sub2 "amount" with
          | .error e => .error e
          | .ok amt =>
            match pyToInt amt with
            | .error e => .error e
            | .ok u => .ok ((u : ℚ) / 1000000)

/-- `NymNodeManager.check_balance`: wrapped in `try/except Exception`, so it
returns a Python float on success and `None` on any raised error — never a
dict, despite its `Dict` annotation. -/
def installCheckBalance (data : PyVal) : PyVal :=
  match installCheckBalanceBody data with
  | .ok q => .vFloat q
  | .error _ => .vNone

/-- A well-formed coin object whose `denom` is not `"unym"` — the shape the
balance endpoint returns for other denominations. -/
def NotUnymCoin (e : PyVal) : Prop :=
  ∃ gs, e = .vDict gs ∧
    pyEqStr ((List.lookup "denom" gs).getD .vNone) "unym" = false

/-- A well-formed coin object carrying the `"unym"` denomination with
amount field `a`. -/
def UnymCoinWithAmount (e a : PyVal) : Prop :=
  ∃ gs, e = .vDict gs ∧
    pyEqStr ((List.lookup "denom" gs).getD .vNone) "unym" = true ∧
    List.lookup "amount" gs = some a

/-- Outcome of one iteration of the funding loop in
`NymNodeInstaller._guide_wallet_setup` (`install.py:1075-1099`). -/
inductive GuideIter where
  | raisesErr (e : PyErr)
  | retryPrompt
  | sufficientBreak
  deriving DecidableEq

/-- Non-raising outcomes of the loop body. -/
inductive GuideStep where
  | breakSufficient
  | toRetry

/-- One iteration of the `while True:` loop of `_guide_wallet_setup`, given
`balance_data = check_balance(...)`: a truthy result is scanned via
`balance_data.get('balances', [])` (amount default `0`); a balance
`≥ 101` breaks, anything less falls to the retry prompt; a falsy result
goes straight to the retry prompt. -/
def guideWalletIterBody (balanceData : PyVal) : Except PyErr GuideStep :=
  if pyTruthy balanceData then
    match pyDictGet balanceData "balances" (.vList []) with
    | .error e => .error e
    | .ok bl =>
      match pyIter bl with
      | .error e => .error e
      | .ok xs =>
        match scanCoins (.vInt 0) xs with
        | .error e => .error e
        | .ok u =>
          if (101 : ℚ) ≤ (u : ℚ) / 1000000 then .ok .breakSufficient
          else .ok .toRetry
  else .ok .toRetry

/-- The observable outcome of one loop iteration: raised error (which
aborts the whole run via the top-level handler), reaching the retry/abort
prompt, or the sufficient-balance `break`. -/
def guideWalletIteration (balanceData : PyVal) : GuideIter :=
  match guideWalletIterBody balanceData with
  | .ok .breakSufficient => .sufficientBreak
  | .ok .toRetry => .retryPrompt
  | .error e => .raisesErr e

/-! ## C4: signature extraction

`NymNodeManager._extract_signature` in `nym_installer.py:723-737` (the
three-tier heuristic) and in `install.py:854-880` (a different algorithm),
plus the displaying caller `sign_contract` (`nym_installer.py:704-718`). -/

/-- Python `s.split(sep)` for a fixed nonempty separator `p0 :: pr`:
leftmost, non-overlapping occurrences. -/
def splitOnAux (p0 : Char) (pr : List Char) : List Char → List (List Char)
  | [] => [[]]
  | c :: cs =>
    if pfx (p0 :: pr) (c :: cs) then
      [] :: splitOnAux p0 pr (cs.drop pr.length)
    else
      match splitOnAux p0 pr cs with
      | [] => [[c]]
      | p :: ps => (c :: p) :: ps
  termination_by l => l.length
  decreasing_by
    · simp only [List.length_cons, List.length_drop]
      omega
    · simp only [List.length_cons]
      omega

/-- The tier-(a) marker `"is:\n"` (`nym_installer.py:726`). -/
def markerIsNl : List Char := ['i', 's', ':', '\n']

/-- `output.split("is:\n")`. -/
def splitIsNl (l : List Char) : List (List Char) := splitOnAux 'i' ['s', ':', '\n'] l

/-- The tier-(c) substring `"is:"`. -/
def subIs : List Char := ['i', 's', ':']

/-- `output.strip().split("\n")[-1].strip()` — the last line of the
stripped output, stripped (`nym_installer.py:729`). -/
def lastStrippedLine (output : List Char) : List Char :=
  trimL (List.getLastD (splitAtNewlines (trimL output)) [])

/-- `NymNodeManager._extract_signature` (`nym_installer.py:723-737`):
(a) if `"is:\n"` occurs, everything after the last occurrence, stripped;
(b) else the last stripped line if longer than 40 characters;
(c) else the stripped suffix after `"is:"` of the first line containing it;
else `None`. -/
def extractSignature (output : List Char) : Option (List Char) :=
  if containsB markerIsNl output then
    some (trimL (List.getLastD (splitIsNl output) []))
  else if 40 < (lastStrippedLine output).length then
    some (lastStrippedLine output)
  else
    match (splitAtNewlines output).find? (fun l => containsB subIs l) with
    | some l => some (trimL ((afterFirst subIs l).getD l))
    | none => none

/-- What `sign_contract` (`nym_installer.py:704-718`) shows the operator:
the extracted signature when it is truthy, otherwise the full raw output
(`result.stdout`). -/
inductive SignDisplay where
  | showsSignature (sig : List Char)
  | showsRaw (raw : List Char)
  deriving DecidableEq

/-- The display decision of `sign_contract`: `if signature:` — so both a
`None` and an empty extraction surface the raw output. -/
def signContractDisplay (stdout : List Char) : SignDisplay :=
  match extractSignature stdout with
  | some sig => if sig.isEmpty then .showsRaw stdout else .showsSignature sig
  | none => .showsRaw stdout

/-- `line.replace(' ', '').isalnum()` (`install.py:871`): drop spaces, then
nonempty and all alphanumeric. -/
def alnumIgnoringSpaces (l : List Char) : Bool :=
  let l' := l.filter (fun c => !(c == ' '))
  !l'.isEmpty && l'.all Char.isAlphanum

/-- `NymNodeManager._extract_signature` in `install.py:854-880`: scan the
stripped output's lines for one containing `"is:"` whose suffix after the
first `"is:"` strips to something nonempty; else scan the lines in reverse
for a stripped line longer than 40 characters that is alphanumeric once
spaces are removed; else `None`. -/
def installExtractSignature (output : List Char) : Option (List Char) :=
  let ls := splitAtNewlines (trimL output)
  match ls.findSome? (fun l =>
      if containsB subIs l then
        let s := trimL ((afterFirst subIs l).getD l)
        if s.isEmpty then none else some s
      else none) with
  | some sig => some sig
  | none =>
    (ls.reverse.map trimL).find?
      (fun l => decide (40 < l.length) && alnumIgnoringSpaces l)

/-! ## Helper lemmas -/

lemma pyStrLt_self (l : List Char) : pyStrLt l l = false := by
  induction l with
  | nil => rfl
  | cons a as ih => simp [pyStrLt, ih]

lemma pyStrLt_asymm : ∀ l₁ l₂ : List Char,
    pyStrLt l₁ l₂ = true → pyStrLt l₂ l₁ = false := by
  intro l₁
  induction l₁ with
  | nil =>
    intro l₂ h
    cases l₂ with
    | nil => simp [pyStrLt] at h
    | cons b bs => rfl
  | cons a as ih =>
    intro l₂ h
    cases l₂ with
    | nil => simp [pyStrLt] at h
    | cons b bs =>
      simp only [pyStrLt] at h ⊢
      by_cases hab : a < b
      · have h1 : ¬ b < a := lt_asymm hab
        have h2 : ¬ b = a := (ne_of_gt hab)
        simp [h1, h2]
      · by_cases heq : a = b
        · subst heq
          simp only [lt_irrefl, if_false, if_pos rfl] at h ⊢
          exact ih bs h
        · simp [hab, heq] at h

lemma pyStrLt_ne {l₁ l₂ : List Char} (h : pyStrLt l₁ l₂ = true) : l₁ ≠ l₂ := by
  intro he
  subst he
  rw [pyStrLt_self] at h
  exact Bool.false_ne_true h

lemma pyStrLtS_self (s : String) : pyStrLtS s s = false := pyStrLt_self s.data

lemma pyStrLtS_asymm {a b : String} (h : pyStrLtS a b = true) :
    pyStrLtS b a = false := pyStrLt_asymm a.data b.data h

lemma pyStrLtS_ne {a b : String} (h : pyStrLtS a b = true) : a ≠ b := by
  intro he
  subst he
  rw [pyStrLtS_self] at h
  exact Bool.false_ne_true h

/-! ## C8 -/

/-- Claim C8, counterexample: on a host with no `sudo`, `nym_installer.py`'s
`CommandRunner.run` called with `sudo=True` silently executes
`apt-get update` without elevation instead of failing with a
privilege-unavailable error. -/
theorem C8_counterexample_silent_unelevated :
    nymCommandRun true false ["apt-get", "update"] = .executes ["apt-get", "update"]
    ∧ nymCommandRun true false ["apt-get", "update"] ≠ .raisesSudoUnavailable := by
  decide

/-- Claim C8, amended: only `install.py`'s `CommandRunner.run` fails an
elevated call with a privilege-unavailable error when no `sudo` wrapper
exists; `nym_installer.py`'s `CommandRunner.run` and `install.py`'s
`CommandRunner.run_with_progress` silently execute the command without
elevation in that situation.  With the wrapper present, all three prepend
`sudo`. -/
theorem C8_elevation_behavior (cmd : List String) :
    installCommandRun true false cmd = .raisesSudoUnavailable
    ∧ installCommandRun true true cmd = .executes ("sudo" :: cmd)
    ∧ nymCommandRun true true cmd = .executes ("sudo" :: cmd)
    ∧ nymCommandRun true false cmd = .executes cmd
    ∧ installRunWithProgress true true cmd = .executes ("sudo" :: cmd)
    ∧ installRunWithProgress true false cmd = .executes cmd :=
  ⟨rfl, rfl, rfl, rfl, rfl, rfl⟩

/-! ## C6 -/

/-- Claim C6: `update_binary` issues its commands in the fixed order
backup-copy, overwrite-copy, chmod — the trace is always a prefix of that
sequence, the first command issued is the backup copy, whenever the
overwrite is issued the backup copy was issued strictly before it, and the
call succeeds exactly when all three commands succeed. -/
theorem C6_update_binary_order (b o c : Bool) :
    (updateBinaryModel b o c).1.head? = some .cpBackup
    ∧ ((updateBinaryModel b o c).1 = [.cpBackup]
       ∨ (updateBinaryModel b o c).1 = [.cpBackup, .cpOverwrite]
       ∨ (updateBinaryModel b o c).1 = [.cpBackup, .cpOverwrite, .chmodLive])
    ∧ (UpdCmd.cpOverwrite ∈ (updateBinaryModel b o c).1 →
        (updateBinaryModel b o c).1.take 2 = [.cpBackup, .cpOverwrite])
    ∧ ((updateBinaryModel b o c).2 = true ↔ b = true ∧ o = true ∧ c = true) := by
  cases b <;> cases o <;> cases c <;> decide

/-- Witness for C6 at a concrete input: on the all-success run the
overwrite is issued and the backup precedes it. -/
theorem C6_update_binary_order_witness :
    UpdCmd.cpOverwrite ∈ (updateBinaryModel true true true).1
    ∧ (updateBinaryModel true true true).1.take 2 = [.cpBackup, .cpOverwrite] :=
  ⟨by decide, (C6_update_binary_order true true true).2.2.1 (by decide)⟩

/-! ## C5 -/

/-- Claim C5: the updater compares version identifiers by plain string
(lexicographic) order.  Once both versions are read: equal strings yield
the no-op "up to date" result with no swap; a candidate ordering strictly
below the installed string warns and never swaps; the swap branch is
reached only when the candidate orders strictly above the installed
string.  The final conjuncts exhibit the non-semantic ordering:
`"v10.0.0"` compares below `"v9.9.9"`, so a semantically newer candidate
is reported as older and not swapped. -/
theorem C5_version_compare (env : UpdaterEnv) (p : String) (r : String × String)
    (curV newV : String)
    (hb : env.binaryPath = some p)
    (hc : getBuildVersion env.curVersionOut = some curV)
    (hr : env.releaseInfo = some r)
    (hd : env.downloadOk = true)
    (hn : getBuildVersion env.newVersionOut = some newV) :
    (newV = curV → updaterMain env = ⟨0, false, false, true⟩)
    ∧ (pyStrLtS newV curV = true →
        (updaterMain env).warnedOlder = true ∧ (updaterMain env).swapInvoked = false
        ∧ (updaterMain env).exitCode = 0)
    ∧ ((updaterMain env).swapInvoked = true → pyStrLtS curV newV = true)
    ∧ pyStrLtS "v10.0.0" "v9.9.9" = true
    ∧ updaterMain ⟨some "/usr/local/bin/nym-node", some "Build Version: v9.9.9\n",
        some ("tag", "url"), true, some "Build Version: v10.0.0\n",
        false, "y", true⟩ = ⟨0, false, true, false⟩ := by
  have hm : updaterMain env =
      (if pyStrLtS curV newV then
        (if (if env.autoYes then "y" else pyLowerStr (pyStrip env.updResponse)) == "y" then
          (if env.updateOk then ⟨0, true, false, false⟩ else ⟨1, true, false, false⟩)
        else ⟨0, false, false, false⟩)
      else if newV == curV then ⟨0, false, false, true⟩
      else ⟨0, false, true, false⟩ : UpdaterResult) := by
    rw [updaterMain, hb, hc, hr, hd, hn]
    rfl
  refine ⟨?_, ?_, ?_, by decide, by decide⟩
  · intro he
    subst he
    rw [hm, pyStrLtS_self]
    simp
  · intro hlt
    have h1 : pyStrLtS curV newV = false := pyStrLtS_asymm hlt
    have h2 : (newV == curV) = false := by
      rw [beq_eq_false_iff_ne]
      exact pyStrLtS_ne hlt
    rw [hm, h1, h2]
    simp
  · intro hs
    cases hlt : pyStrLtS curV newV with
    | true => rfl
    | false =>
      rw [hm, hlt] at hs
      cases h2 : (newV == curV) <;> simp [h2] at hs

/-- Witness for C5 at concrete inputs: equal versions produce the
up-to-date no-op, and the string order really places `"v10.0.0"` below
`"v9.9.9"`. -/
theorem C5_version_compare_witness :
    updaterMain ⟨some "/usr/local/bin/nym-node", some "Build Version: 1.1.0\n",
        some ("tag", "url"), true, some "Build Version: 1.1.0\n",
        false, "y", true⟩ = ⟨0, false, false, true⟩
    ∧ pyStrLtS "v10.0.0" "v9.9.9" = true :=
  ⟨(C5_version_compare
      ⟨some "/usr/local/bin/nym-node", some "Build Version: 1.1.0\n",
        some ("tag", "url"), true, some "Build Version: 1.1.0\n",
        false, "y", true⟩
      "/usr/local/bin/nym-node" ("tag", "url") "1.1.0" "1.1.0"
      rfl (by decide) rfl rfl (by decide)).1 rfl,
   (C5_version_compare
      ⟨some "/usr/local/bin/nym-node", some "Build Version: 1.1.0\n",
        some ("tag", "url"), true, some "Build Version: 1.1.0\n",
        false, "y", true⟩
      "/usr/local/bin/nym-node" ("tag", "url") "1.1.0" "1.1.0"
      rfl (by decide) rfl rfl (by decide)).2.2.2.1⟩

/-! ## C7 helper lemmas -/

lemma pfx_append (p t : List Char) : pfx p (p ++ t) = true := by
  induction p with
  | nil => rfl
  | cons a as ih => simp [pfx, ih]

lemma splitAtNewlines_no_nl (l : List Char) (h : ∀ c ∈ l, c ≠ '\n') :
    splitAtNewlines l = [l] := by
  induction l with
  | nil => rfl
  | cons c cs ih =>
    have hc : (c == '\n') = false := by
      simp only [beq_eq_false_iff_ne]
      exact h c (List.mem_cons_self c cs)
    have hcs := ih (fun x hx => h x (List.mem_cons_of_mem c hx))
    simp [splitAtNewlines, hc, hcs]

lemma splitAtNewlines_append_line (l u : List Char) (h : ∀ c ∈ l, c ≠ '\n') :
    splitAtNewlines (l ++ '\n' :: u) = l :: splitAtNewlines u := by
  induction l with
  | nil => simp [splitAtNewlines]
  | cons c cs ih =>
    have hc : (c == '\n') = false := by
      simp only [beq_eq_false_iff_ne]
      exact h c (List.mem_cons_self c cs)
    have hcs := ih (fun x hx => h x (List.mem_cons_of_mem c hx))
    simp [splitAtNewlines, hc, hcs]

lemma splitAtNewlines_joinLines : ∀ ls : List (List Char), ls ≠ [] →
    (∀ l ∈ ls, ∀ c ∈ l, c ≠ '\n') → splitAtNewlines (joinLines ls) = ls := by
  intro ls
  induction ls with
  | nil => intro h; exact absurd rfl h
  | cons l rest ih =>
    intro _ hnl
    cases rest with
    | nil =>
      exact splitAtNewlines_no_nl l (hnl l (List.mem_cons_self l []))
    | cons l2 rest2 =>
      have h1 : joinLines (l :: l2 :: rest2) = l ++ '\n' :: joinLines (l2 :: rest2) := rfl
      rw [h1, splitAtNewlines_append_line l _ (hnl l (List.mem_cons_self l _)),
        ih (by simp) (fun x hx => hnl x (List.mem_cons_of_mem l hx))]

lemma joinLines_with_last_ne_nil (pre : List (List Char)) (c : Char) (ys : List Char) :
    joinLines (pre ++ [c :: ys]) ≠ [] := by
  cases pre with
  | nil => simp [joinLines]
  | cons p ps =>
    rcases hq : ps ++ [c :: ys] with _ | ⟨a, as⟩
    · exact absurd hq (by simp)
    · intro habs
      rw [List.cons_append, hq] at habs
      have : joinLines (p :: a :: as) = p ++ '\n' :: joinLines (a :: as) := rfl
      rw [this] at habs
      simp at habs

lemma find?_skip_all {α : Type} (p : α → Bool) (pre rest : List α)
    (h : ∀ x ∈ pre, p x = false) :
    List.find? p (pre ++ rest) = List.find? p rest := by
  induction pre with
  | nil => rfl
  | cons a as ih =>
    rw [List.cons_append, List.find?_cons_of_neg]
    · exact ih (fun x hx => h x (List.mem_cons_of_mem a hx))
    · simp [h a (List.mem_cons_self a as)]

lemma afterFirstColon_label (t : List Char) :
    afterFirst [':'] (buildVersionLabel ++ t) = some t := by
  simp [buildVersionLabel, afterFirst, pfx]

/-! ## C7 -/

/-- Claim C7: `get_build_version` scans the `--version` output's lines for
one carrying the `"Build Version:"` label and returns the stripped text
after the label (first conjunct, for an output built from label-free lines
followed by a labelled line); for every output with no labelled line it
returns `None` without raising (second conjunct, totality being inherent
in the embedding); and whenever either the installed or the downloaded
binary's version is not found, `main` exits with code 1 before
`update_binary` is ever invoked (third conjunct). -/
theorem C7_build_version_extraction (out : String) (pre : List (List Char))
    (t : List Char) (env : UpdaterEnv) :
    ((∀ l ∈ splitAtNewlines out.data, pfx buildVersionLabel l = false) →
      getBuildVersion (some out) = none)
    ∧ ((∀ l ∈ pre, pfx buildVersionLabel l = false) →
       (∀ l ∈ pre, ∀ c ∈ l, c ≠ '\n') →
       (∀ c ∈ t, c ≠ '\n') →
       getBuildVersion (some (String.mk (joinLines (pre ++ [buildVersionLabel ++ t])))) =
         some (String.mk (trimL t)))
    ∧ ((getBuildVersion env.curVersionOut = none ∨ getBuildVersion env.newVersionOut = none) →
        (updaterMain env).swapInvoked = false ∧ (updaterMain env).exitCode = 1) := by
  refine ⟨?_, ?_, ?_⟩
  · intro h
    have hf : (splitAtNewlines out.data).find? (fun l => pfx buildVersionLabel l) = none :=
      List.find?_eq_none.2 (fun x hx => by simp [h x hx])
    cases he : out.data.isEmpty <;> simp [getBuildVersion, he, hf]
  · intro hpre hprenl htnl
    have hne : (joinLines (pre ++ [buildVersionLabel ++ t])).isEmpty = false := by
      have h0 := joinLines_with_last_ne_nil pre 'B'
        (['u', 'i', 'l', 'd', ' ', 'V', 'e', 'r', 's', 'i', 'o', 'n', ':'] ++ t)
      simpa [List.isEmpty_iff, buildVersionLabel] using h0
    have hsplit : splitAtNewlines (joinLines (pre ++ [buildVersionLabel ++ t])) =
        pre ++ [buildVersionLabel ++ t] := by
      apply splitAtNewlines_joinLines _ (by simp)
      intro l hl
      rcases List.mem_append.1 hl with h1 | h1
      · exact hprenl l h1
      · rcases List.mem_singleton.1 h1 with rfl
        intro c hc
        rcases List.mem_append.1 hc with h2 | h2
        · have hall : ∀ x ∈ buildVersionLabel, x ≠ '\n' := by decide
          exact hall c h2
        · exact htnl c h2
    have hfind : (pre ++ [buildVersionLabel ++ t]).find?
        (fun l => pfx buildVersionLabel l) = some (buildVersionLabel ++ t) := by
      rw [find?_skip_all _ _ _ (fun x hx => hpre x hx), List.find?_cons_of_pos]
      simp [pfx_append]
    simp [getBuildVersion, hne, hsplit, hfind, afterFirstColonStripped,
      afterFirstColon_label]
  · intro h
    rcases hb : env.binaryPath with _ | p
    · simp [updaterMain, hb]
    rcases hc : getBuildVersion env.curVersionOut with _ | cv
    · simp [updaterMain, hb, hc]
    rcases hr : env.releaseInfo with _ | r
    · simp [updaterMain, hb, hc, hr]
    cases hd : env.downloadOk
    · simp [updaterMain, hb, hc, hr, hd]
    rcases hn : getBuildVersion env.newVersionOut with _ | nv
    · simp [updaterMain, hb, hc, hr, hd, hn]
    rcases h with h | h
    · rw [hc] at h; exact absurd h (by simp)
    · rw [hn] at h; exact absurd h (by simp)

/-- Witness for C7 at concrete inputs: an output with no labelled line
yields `None`, and an updater run whose current-version read failed exits
1 without swapping. -/
theorem C7_build_version_extraction_witness :
    getBuildVersion (some "nym-node\nBinary Name: nym-node") = none
    ∧ ((updaterMain ⟨some "/usr/local/bin/nym-node", none, some ("tag", "url"),
          true, some "Build Version: 1.1.0\n", false, "y", true⟩).swapInvoked = false
       ∧ (updaterMain ⟨some "/usr/local/bin/nym-node", none, some ("tag", "url"),
          true, some "Build Version: 1.1.0\n", false, "y", true⟩).exitCode = 1) :=
  ⟨(C7_build_version_extraction "nym-node\nBinary Name: nym-node" [] []
      ⟨some "/usr/local/bin/nym-node", none, some ("tag", "url"),
        true, some "Build Version: 1.1.0\n", false, "y", true⟩).1 (by decide),
   (C7_build_version_extraction "nym-node\nBinary Name: nym-node" [] []
      ⟨some "/usr/local/bin/nym-node", none, some ("tag", "url"),
        true, some "Build Version: 1.1.0\n", false, "y", true⟩).2.2
      (Or.inl rfl)⟩

/-! ## C2 -/

lemma waitForFunding_sleeps : ∀ (bs : List (Option ℚ)) (ans : List String)
    (r : Bool) (p : ℕ) (sl : List ℕ),
    waitForFunding bs ans = some (r, p, sl) →
    sl = List.replicate (p - 1) 10 ∧ 1 ≤ p := by
  intro bs
  induction bs with
  | nil => intro ans r p sl h; simp [waitForFunding] at h
  | cons b rest ih =>
    intro ans r p sl h
    cases ans with
    | nil =>
      simp only [waitForFunding] at h
      by_cases hs : sufficientPoll b = true
      · rw [if_pos hs] at h
        obtain ⟨rfl, rfl, rfl⟩ : true = r ∧ 1 = p ∧ [] = sl := by
          simpa using h
        simp
      · rw [if_neg hs] at h
        simp at h
    | cons a arest =>
      simp only [waitForFunding] at h
      by_cases hs : sufficientPoll b = true
      · rw [if_pos hs] at h
        obtain ⟨rfl, rfl, rfl⟩ : true = r ∧ 1 = p ∧ [] = sl := by
          simpa using h
        simp
      · rw [if_neg hs] at h
        by_cases ha : affirmYesList a = true
        · rw [if_pos ha] at h
          rcases hrec : waitForFunding rest arest with _ | ⟨r', p', sl'⟩
          · rw [hrec] at h; simp at h
          · rw [hrec] at h
            obtain ⟨rfl, rfl, rfl⟩ : r' = r ∧ p' + 1 = p ∧ 10 :: sl' = sl := by
              simpa using h
            obtain ⟨h1, h2⟩ := ih arest r' p' sl' hrec
            subst h1
            constructor
            · have hp : p' + 1 - 1 = (p' - 1) + 1 := by omega
              rw [hp, List.replicate_succ]
            · omega
        · rw [if_neg ha] at h
          obtain ⟨rfl, rfl, rfl⟩ : false = r ∧ 1 = p ∧ [] = sl := by
            simpa using h
          simp

/-- Claim C2: `wait_for_funding` returns success with one poll and no
sleeps as soon as the first poll reports at least the 101 NYM threshold;
with an insufficient (or failed) poll, a non-affirmative retry answer
returns the terminal failure after that single poll and the caller
(`_setup_wallet`) turns it into `sys.exit(1)`; every completed run sleeps
exactly once (10 s) per affirmative retry, i.e. `polls - 1` times; and on
balances `[50, 101]` with one affirmative retry it succeeds after the
second poll with exactly one 10-second wait. -/
theorem C2_wait_for_funding (v : ℚ) (b : Option ℚ) (bs : List (Option ℚ))
    (a : String) (ans : List String) (r : Bool) (p : ℕ) (sl : List ℕ) :
    (minBalanceNym ≤ v → waitForFunding (some v :: bs) ans = some (true, 1, []))
    ∧ (sufficientPoll b = false → affirmYesList a = false →
        waitForFunding (b :: bs) (a :: ans) = some (false, 1, [])
        ∧ setupWalletFundingExit false = some 1)
    ∧ (waitForFunding bs ans = some (r, p, sl) →
        sl = List.replicate (p - 1) 10 ∧ 1 ≤ p)
    ∧ waitForFunding [some 50, some 101] ["yes"] = some (true, 2, [10]) := by
  refine ⟨?_, ?_, waitForFunding_sleeps bs ans r p sl, by decide⟩
  · intro hv
    have hs : sufficientPoll (some v) = true := by
      simp [sufficientPoll, hv]
    cases ans <;> simp only [waitForFunding, if_pos hs]
  · intro hs ha
    simp only [waitForFunding, if_neg (by simp [hs] : ¬ sufficientPoll b = true)]
    rw [if_neg (by simp [ha] : ¬ affirmYesList a = true)]
    exact ⟨rfl, rfl⟩

/-- Witness for C2 at concrete inputs: a first poll of 150 NYM succeeds
immediately; a 50 NYM poll followed by the answer `"n"` fails after one
poll and makes the caller exit 1; and the completed `[50, 101]` run slept
exactly once. -/
theorem C2_wait_for_funding_witness :
    waitForFunding [some 150] [] = some (true, 1, [])
    ∧ (waitForFunding [some 50] ["n"] = some (false, 1, [])
       ∧ setupWalletFundingExit false = some 1)
    ∧ [10] = List.replicate (2 - 1) 10 :=
  ⟨(C2_wait_for_funding 150 (some 50) [] "n" [] true 2 [10]).1 (by decide),
   (C2_wait_for_funding 150 (some 50) [] "n" [] true 2 [10]).2.1
      (by decide) (by decide),
   ((C2_wait_for_funding 150 (some 50) [some 50, some 101] "n" ["yes"] true 2 [10]).2.2.1
      ((C2_wait_for_funding 150 (some 50) [some 50, some 101] "n" ["yes"]
        true 2 [10]).2.2.2)).1⟩

/-! ## C1 -/

/-- Claim C1, counterexample: with an existing installation detected and
the operator answering `"n"` to the reinstall prompt (all prior steps
succeeding), the run exits with code 1 — `_install` returns `False` and
`run` reports "Installation failed" with `sys.exit(1)` — not with the
claimed clean exit code 0, even though the post-install phase (had it run)
would have exited 0.  The trace confirms nothing ran after the prompt. -/
theorem C1_counterexample_decline_exit_code :
    installerRunExitCode ⟨false, true, true, true, "n", true, true, true, true⟩ 0 = 1
    ∧ (1 : ℕ) ≠ 0
    ∧ (installSteps ⟨false, true, true, true, "n", true, true, true, true⟩).1
        = [.sysUpdate, .deps, .reinstallPrompt] := by
  decide

/-- Claim C1, amended: when the orchestrator detects an existing
installation and the operator gives a non-affirmative reinstall answer
(the run having reached the gate), the run terminates with exit code 1,
reported as an installation failure, and performs no further filesystem or
service mutations — no download, firewall, init or service step appears in
the trace after the prompt. -/
theorem C1_decline_reinstall (o : InstallOracle) (w : ℕ)
    (hE : o.existingInstall = true)
    (hA : affirmStartsY o.reinstallAnswer = false)
    (hS : o.skipUpdate = false → o.sysUpdateOk = true)
    (hD : o.depsOk = true) :
    installSteps o =
      ((if o.skipUpdate then [] else [.sysUpdate]) ++ [.deps, .reinstallPrompt], false)
    ∧ installerRunExitCode o w = 1
    ∧ InstallEvent.binaryDownload ∉ (installSteps o).1
    ∧ InstallEvent.nodeInit ∉ (installSteps o).1
    ∧ InstallEvent.serviceSetup ∉ (installSteps o).1
    ∧ InstallEvent.firewallStep ∉ (installSteps o).1 := by
  have key : installSteps o =
      ((if o.skipUpdate then [] else [.sysUpdate]) ++ [.deps, .reinstallPrompt], false) := by
    cases hsk : o.skipUpdate
    · simp [installSteps, hsk, hS hsk, hD, hE, hA]
    · simp [installSteps, hsk, hD, hE, hA]
  refine ⟨key, by simp [installerRunExitCode, key], ?_, ?_, ?_, ?_⟩ <;>
    rw [key] <;> cases o.skipUpdate <;> simp

/-- Witness for C1's amended theorem at a concrete oracle. -/
theorem C1_decline_reinstall_witness :
    installerRunExitCode ⟨true, true, true, true, "no", true, true, true, true⟩ 0 = 1
    ∧ affirmStartsY "no" = false :=
  ⟨(C1_decline_reinstall ⟨true, true, true, true, "no", true, true, true, true⟩ 0
      (by decide) (by decide) (by decide) (by decide)).2.1,
   by decide⟩

/-! ## C9 -/

/-- Claim C9: in the installation sequence, a firewall-configuration
failure is only warned about and the run continues through node
initialization, service setup and completion; whereas a failure of the
system update, dependency installation, binary download, node
initialization or service setup step halts `_install` immediately (the
following steps never appear in the trace) and makes the whole run exit
with code 1. -/
theorem C9_step_failure_policy (o : InstallOracle) (w : ℕ) :
    (o.existingInstall = false → (o.skipUpdate = false → o.sysUpdateOk = true) →
     o.depsOk = true → o.downloadOk = true → o.firewallOk = false →
     o.initOk = true → o.serviceOk = true →
       (installSteps o).2 = true
       ∧ InstallEvent.firewallWarning ∈ (installSteps o).1
       ∧ InstallEvent.nodeInit ∈ (installSteps o).1
       ∧ InstallEvent.serviceSetup ∈ (installSteps o).1
       ∧ InstallEvent.successMsg ∈ (installSteps o).1)
    ∧ (o.skipUpdate = false → o.sysUpdateOk = false →
        installSteps o = ([.sysUpdate], false) ∧ installerRunExitCode o w = 1)
    ∧ ((o.skipUpdate = false → o.sysUpdateOk = true) → o.depsOk = false →
        (installSteps o).2 = false ∧ installerRunExitCode o w = 1
        ∧ InstallEvent.binaryDownload ∉ (installSteps o).1
        ∧ InstallEvent.nodeInit ∉ (installSteps o).1
        ∧ InstallEvent.serviceSetup ∉ (installSteps o).1)
    ∧ (o.existingInstall = false → (o.skipUpdate = false → o.sysUpdateOk = true) →
       o.depsOk = true → o.downloadOk = false →
        (installSteps o).2 = false ∧ installerRunExitCode o w = 1
        ∧ InstallEvent.nodeInit ∉ (installSteps o).1
        ∧ InstallEvent.serviceSetup ∉ (installSteps o).1)
    ∧ (o.existingInstall = false → (o.skipUpdate = false → o.sysUpdateOk = true) →
       o.depsOk = true → o.downloadOk = true → o.initOk = false →
        (installSteps o).2 = false ∧ installerRunExitCode o w = 1
        ∧ InstallEvent.serviceSetup ∉ (installSteps o).1)
    ∧ (o.existingInstall = false → (o.skipUpdate = false → o.sysUpdateOk = true) →
       o.depsOk = true → o.downloadOk = true → o.initOk = true → o.serviceOk = false →
        (installSteps o).2 = false ∧ installerRunExitCode o w = 1
        ∧ InstallEvent.successMsg ∉ (installSteps o).1) := by
  refine ⟨?_, ?_, ?_, ?_, ?_, ?_⟩
  · intro h1 h2 h3 h4 h5 h6 h7
    cases hsk : o.skipUpdate
    · simp [installSteps, installerRunExitCode, hsk, h2 hsk, h1, h3, h4, h5, h6, h7]
    · simp [installSteps, installerRunExitCode, hsk, h1, h3, h4, h5, h6, h7]
  · intro h1 h2
    simp [installSteps, installerRunExitCode, h1, h2]
  · intro h1 h2
    cases hsk : o.skipUpdate
    · simp [installSteps, installerRunExitCode, hsk, h1 hsk, h2]
    · simp [installSteps, installerRunExitCode, hsk, h2]
  · intro h1 h2 h3 h4
    cases hsk : o.skipUpdate
    · simp [installSteps, installerRunExitCode, hsk, h2 hsk, h1, h3, h4]
    · simp [installSteps, installerRunExitCode, hsk, h1, h3, h4]
  · intro h1 h2 h3 h4 h5
    cases hsk : o.skipUpdate <;> cases hfw : o.firewallOk <;>
      first
      | simp [installSteps, installerRunExitCode, hsk, h2 hsk, h1, h3, h4, h5, hfw]
      | simp [installSteps, installerRunExitCode, hsk, h1, h3, h4, h5, hfw]
  · intro h1 h2 h3 h4 h5 h6
    cases hsk : o.skipUpdate <;> cases hfw : o.firewallOk <;>
      first
      | simp [installSteps, installerRunExitCode, hsk, h2 hsk, h1, h3, h4, h5, h6, hfw]
      | simp [installSteps, installerRunExitCode, hsk, h1, h3, h4, h5, h6, hfw]

/-- Witness for C9 at concrete oracles: a run where only the firewall step
fails still completes with the warning in its trace; a run where the
binary download fails reports failure with exit code 1. -/
theorem C9_step_failure_policy_witness :
    ((installSteps ⟨false, true, true, false, "x", true, false, true, true⟩).2 = true
     ∧ InstallEvent.firewallWarning ∈
        (installSteps ⟨false, true, true, false, "x", true, false, true, true⟩).1)
    ∧ ((installSteps ⟨false, true, true, false, "x", false, true, true, true⟩).2 = false
       ∧ installerRunExitCode ⟨false, true, true, false, "x", false, true, true, true⟩ 5 = 1) := by
  have h1 := (C9_step_failure_policy
      ⟨false, true, true, false, "x", true, false, true, true⟩ 5).1
      rfl (fun _ => rfl) rfl rfl rfl rfl rfl
  have h2 := (C9_step_failure_policy
      ⟨false, true, true, false, "x", false, true, true, true⟩ 5).2.2.2.1
      rfl (fun _ => rfl) rfl rfl
  exact ⟨⟨h1.1, h1.2.1⟩, ⟨h2.1, h2.2.1⟩⟩

/-! ## C10 helper lemmas -/

lemma scanCoins_skip (dflt e : PyVal) (rest : List PyVal) (h : NotUnymCoin e) :
    scanCoins dflt (e :: rest) = scanCoins dflt rest := by
  obtain ⟨gs, rfl, hne⟩ := h
  simp [scanCoins, pyDictGet, hne]

lemma scanCoins_none (dflt : PyVal) (entries : List PyVal)
    (h : ∀ e ∈ entries, NotUnymCoin e) : scanCoins dflt entries = .ok 0 := by
  induction entries with
  | nil => rfl
  | cons e rest ih =>
    rw [scanCoins_skip dflt e rest (h e (List.mem_cons_self e rest))]
    exact ih (fun x hx => h x (List.mem_cons_of_mem e hx))

lemma scanCoins_append_skip (dflt : PyVal) (pre rest : List PyVal)
    (h : ∀ e ∈ pre, NotUnymCoin e) :
    scanCoins dflt (pre ++ rest) = scanCoins dflt rest := by
  induction pre with
  | nil => rfl
  | cons e pre2 ih =>
    rw [List.cons_append, scanCoins_skip dflt e _ (h e (List.mem_cons_self e pre2))]
    exact ih (fun x hx => h x (List.mem_cons_of_mem e hx))

lemma scanCoins_unym (dflt e a : PyVal) (rest : List PyVal)
    (h : UnymCoinWithAmount e a) :
    scanCoins dflt (e :: rest) = pyToInt a := by
  obtain ⟨gs, rfl, hu, ha⟩ := h
  simp [scanCoins, pyDictGet, hu, ha]

/-! ## C10 -/

/-- Claim C10: `check_balance` never propagates an exception (every input
yields `some` balance or `none`); a response whose balances list lacks the
`"unym"` denomination entirely yields the zero balance `some 0`, not an
error; a response whose first `"unym"` coin carries a malformed amount
(one `int(...)` rejects) yields the parse-failure result `none`; and
`none` is distinct from the zero balance `some 0`. -/
theorem C10_check_balance (data : PyVal) (fs : List (String × PyVal))
    (entries pre post : List PyVal) (e a : PyVal) (err : PyErr) :
    ((∃ q, nymCheckBalance data = some q) ∨ nymCheckBalance data = none)
    ∧ (List.lookup "balances" fs = some (.vList entries) →
       (∀ x ∈ entries, NotUnymCoin x) →
       nymCheckBalance (.vDict fs) = some 0)
    ∧ (List.lookup "balances" fs = some (.vList (pre ++ e :: post)) →
       (∀ x ∈ pre, NotUnymCoin x) →
       UnymCoinWithAmount e a →
       pyToInt a = .error err →
       nymCheckBalance (.vDict fs) = none)
    ∧ (some (0 : ℚ) ≠ (none : Option ℚ)) := by
  refine ⟨?_, ?_, ?_, by simp⟩
  · cases h : nymCheckBalanceBody data with
    | ok q => exact Or.inl ⟨q, by simp [nymCheckBalance, h]⟩
    | error e2 => exact Or.inr (by simp [nymCheckBalance, h])
  · intro hl hall
    have hs := scanCoins_none (.vStr "0") entries hall
    simp [nymCheckBalance, nymCheckBalanceBody, pyDictGet, hl, pyIter, hs]
  · intro hl hpre hu herr
    have hs : scanCoins (.vStr "0") (pre ++ e :: post) = .error err := by
      rw [scanCoins_append_skip _ _ _ hpre, scanCoins_unym _ _ _ _ hu, herr]
    simp [nymCheckBalance, nymCheckBalanceBody, pyDictGet, hl, pyIter, hs]

/-- Witness for C10 at concrete responses: a balances list holding only a
`"uosmo"` coin yields `some 0`; a `"unym"` coin with amount `"12ab"`
yields `none`. -/
theorem C10_check_balance_witness :
    nymCheckBalance (.vDict [("balances", .vList
        [.vDict [("denom", .vStr "uosmo"), ("amount", .vStr "5")]])]) = some 0
    ∧ nymCheckBalance (.vDict [("balances", .vList
        [.vDict [("denom", .vStr "unym"), ("amount", .vStr "12ab")]])]) = none := by
  constructor
  · exact (C10_check_balance .vNone
      [("balances", .vList [.vDict [("denom", .vStr "uosmo"), ("amount", .vStr "5")]])]
      [.vDict [("denom", .vStr "uosmo"), ("amount", .vStr "5")]]
      [] [] .vNone .vNone .valueError).2.1 rfl
      (by
        intro x hx
        rw [List.mem_singleton.1 hx]
        exact ⟨_, rfl, by decide⟩)
  · exact (C10_check_balance .vNone
      [("balances", .vList [.vDict [("denom", .vStr "unym"), ("amount", .vStr "12ab")]])]
      [] [] []
      (.vDict [("denom", .vStr "unym"), ("amount", .vStr "12ab")])
      (.vStr "12ab") .valueError).2.2.1 rfl
      (fun x hx => absurd hx (List.not_mem_nil x))
      ⟨_, rfl, by decide, rfl⟩ rfl

/-! ## C3 -/

/-- Claim C3: in `install.py`, `check_balance` returns a float or `None`
(never a dict); the funding loop in `_guide_wallet_setup` treats a `None`
or zero-float result as "could not retrieve" and reaches the retry/abort
prompt, while every positive float makes the loop body call
`.get('balances', ...)` on a float, which raises `AttributeError`; hence
the sufficient-balance `break` is unreachable for every balance-endpoint
response. -/
theorem C3_sufficient_break_unreachable (data : PyVal) (q : ℚ) :
    ((∃ q2, installCheckBalance data = .vFloat q2) ∨ installCheckBalance data = .vNone)
    ∧ (0 < q → guideWalletIteration (.vFloat q) = .raisesErr .attributeError)
    ∧ guideWalletIteration .vNone = .retryPrompt
    ∧ guideWalletIteration (.vFloat 0) = .retryPrompt
    ∧ guideWalletIteration (installCheckBalance data) ≠ .sufficientBreak := by
  have hfloat : ∀ q2 : ℚ, q2 ≠ 0 →
      guideWalletIteration (.vFloat q2) = .raisesErr .attributeError := by
    intro q2 h0
    have ht : pyTruthy (.vFloat q2) = true := by
      simp [pyTruthy, h0]
    simp [guideWalletIteration, guideWalletIterBody, ht, pyDictGet]
  refine ⟨?_, fun hq => hfloat q (ne_of_gt hq), rfl, ?_, ?_⟩
  · cases h : installCheckBalanceBody data with
    | ok q2 => exact Or.inl ⟨q2, by simp [installCheckBalance, h]⟩
    | error e2 => exact Or.inr (by simp [installCheckBalance, h])
  · have ht : pyTruthy (.vFloat 0) = false := by simp [pyTruthy]
    simp [guideWalletIteration, guideWalletIterBody, ht]
  · cases h : installCheckBalanceBody data with
    | ok q2 =>
      have hc : installCheckBalance data = .vFloat q2 := by
        simp [installCheckBalance, h]
      rw [hc]
      by_cases h0 : q2 = 0
      · subst h0
        have ht : pyTruthy (.vFloat 0) = false := by simp [pyTruthy]
        simp [guideWalletIteration, guideWalletIterBody, ht]
      · rw [hfloat q2 h0]
        simp
    | error e2 =>
      have hc : installCheckBalance data = .vNone := by
        simp [installCheckBalance, h]
      rw [hc]
      simp [guideWalletIteration, guideWalletIterBody, pyTruthy]

/-- Witness for C3 at a concrete positive balance: the loop body raises
`AttributeError` on the float `105`, and on the result of a concrete
failing response it does not reach the sufficient-balance break. -/
theorem C3_sufficient_break_unreachable_witness :
    (0 : ℚ) < 105
    ∧ guideWalletIteration (.vFloat 105) = .raisesErr .attributeError
    ∧ guideWalletIteration (installCheckBalance .vNone) ≠ .sufficientBreak :=
  ⟨by decide,
   (C3_sufficient_break_unreachable .vNone 105).2.1 (by decide),
   (C3_sufficient_break_unreachable .vNone 105).2.2.2.2⟩

/-! ## C4 helper lemmas

The tier-(a) marker `"is:\n"` and the tier-(c) substring `"is:"` are both
border-free (no proper prefix equals a suffix), so occurrences cannot
straddle a concatenation boundary; the lemmas below exploit this. -/

lemma containsB_tail {pat : List Char} {c : Char} {cs : List Char}
    (h : containsB pat (c :: cs) = false) : containsB pat cs = false := by
  simp only [containsB, Bool.or_eq_false_iff] at h
  exact h.2

lemma containsB_append_left {pat u : List Char} (s : List Char)
    (h : containsB pat u = true) : containsB pat (s ++ u) = true := by
  induction s with
  | nil => simpa using h
  | cons c cs ih =>
    rw [List.cons_append]
    simp only [containsB, Bool.or_eq_true]
    exact Or.inr ih

lemma contains_marker (s t : List Char) :
    containsB markerIsNl (s ++ (markerIsNl ++ t)) = true := by
  apply containsB_append_left
  have h1 : pfx markerIsNl (markerIsNl ++ t) = true := pfx_append _ _
  show containsB markerIsNl ('i' :: (['s', ':', '\n'] ++ t)) = true
  simp only [containsB, Bool.or_eq_true]
  exact Or.inl h1

lemma contains_is3 (s u : List Char) :
    containsB subIs (s ++ (subIs ++ u)) = true := by
  apply containsB_append_left
  have h1 : pfx subIs (subIs ++ u) = true := pfx_append _ _
  show containsB subIs ('i' :: (['s', ':'] ++ u)) = true
  simp only [containsB, Bool.or_eq_true]
  exact Or.inl h1

lemma pfx_marker_mid (s t : List Char) (hs : containsB markerIsNl s = false)
    (hne : s ≠ []) : pfx markerIsNl (s ++ (markerIsNl ++ t)) = false := by
  match s with
  | [] => exact absurd rfl hne
  | [c] => simp [markerIsNl, pfx]
  | [c, d] => simp [markerIsNl, pfx]
  | [c, d, e] => simp [markerIsNl, pfx]
  | c :: d :: e :: f :: cs4 =>
    by_contra hpf
    rw [Bool.not_eq_false] at hpf
    have hsplit := hpf
    simp only [markerIsNl, List.cons_append, pfx, Bool.and_eq_true, beq_iff_eq] at hsplit
    obtain ⟨h1, h2, h3, h4, -⟩ := hsplit
    subst h1 h2 h3 h4
    simp [containsB, markerIsNl, pfx] at hs

lemma pfx_is3_mid (s u : List Char) (hs : containsB subIs s = false)
    (hne : s ≠ []) : pfx subIs (s ++ (subIs ++ u)) = false := by
  match s with
  | [] => exact absurd rfl hne
  | [c] => simp [subIs, pfx]
  | [c, d] => simp [subIs, pfx]
  | c :: d :: e :: cs3 =>
    by_contra hpf
    rw [Bool.not_eq_false] at hpf
    have hsplit := hpf
    simp only [subIs, List.cons_append, pfx, Bool.and_eq_true, beq_iff_eq] at hsplit
    obtain ⟨h1, h2, h3, -⟩ := hsplit
    subst h1 h2 h3
    simp [containsB, subIs, pfx] at hs

lemma split_no_occurrence (p0 : Char) (pr l : List Char)
    (h : containsB (p0 :: pr) l = false) : splitOnAux p0 pr l = [l] := by
  induction l with
  | nil => simp [splitOnAux]
  | cons c cs ih =>
    simp only [containsB, Bool.or_eq_false_iff] at h
    rw [splitOnAux, if_neg (by simp [h.1]), ih h.2]

lemma split_marker (s t : List Char) (hs : containsB markerIsNl s = false)
    (ht : containsB markerIsNl t = false) :
    splitIsNl (s ++ (markerIsNl ++ t)) = [s, t] := by
  induction s with
  | nil =>
    rw [List.nil_append]
    show splitOnAux 'i' ['s', ':', '\n'] ('i' :: (['s', ':', '\n'] ++ t)) = [[], t]
    rw [splitOnAux,
      if_pos (show pfx ['i', 's', ':', '\n'] ('i' :: (['s', ':', '\n'] ++ t)) = true from
        pfx_append markerIsNl t),
      List.drop_left, split_no_occurrence 'i' ['s', ':', '\n'] t ht]
  | cons c cs ih =>
    have h1 : pfx markerIsNl ((c :: cs) ++ (markerIsNl ++ t)) = false :=
      pfx_marker_mid (c :: cs) t hs (by simp)
    have h2 : containsB markerIsNl cs = false := containsB_tail hs
    show splitOnAux 'i' ['s', ':', '\n'] (c :: (cs ++ (markerIsNl ++ t))) = [c :: cs, t]
    rw [splitOnAux, if_neg (by simpa using h1),
      show splitOnAux 'i' ['s', ':', '\n'] (cs ++ (markerIsNl ++ t)) = [cs, t] from ih h2]

lemma afterFirst_is3 (s u : List Char) (hs : containsB subIs s = false) :
    afterFirst subIs (s ++ (subIs ++ u)) = some u := by
  induction s with
  | nil =>
    rw [List.nil_append]
    show afterFirst subIs ('i' :: (['s', ':'] ++ u)) = some u
    rw [afterFirst,
      if_pos (show pfx subIs ('i' :: (['s', ':'] ++ u)) = true from pfx_append subIs u)]
    simp [subIs]
  | cons c cs ih =>
    have h1 : pfx subIs ((c :: cs) ++ (subIs ++ u)) = false :=
      pfx_is3_mid (c :: cs) u hs (by simp)
    have h2 : containsB subIs cs = false := containsB_tail hs
    show afterFirst subIs (c :: (cs ++ (subIs ++ u))) = some u
    rw [afterFirst, if_neg (by simpa using h1)]
    exact ih h2

/-! ## C4 -/

/-- Claim C4, amended (for `nym_installer.py`'s `_extract_signature`, which
the `install.py` variant does not follow — see the counterexample): the
ordered three-tier heuristic holds.  (a) For output consisting of a
marker-free prefix, the `"is:\n"` marker, and a marker-free remainder, the
stripped remainder is returned.  (b) Without the marker, a last stripped
line longer than 40 characters is returned as the signature.  (c) Else the
stripped suffix after the first `"is:"` of the first line containing it is
returned.  (d) Else the result is not-found and the caller surfaces the
raw output.  The final conjuncts check the claim's two concrete examples
against this implementation. -/
theorem C4_signature_extraction (s t u l pre suf : List Char) :
    (containsB markerIsNl s = false → containsB markerIsNl t = false →
      extractSignature (s ++ (markerIsNl ++ t)) = some (trimL t))
    ∧ (containsB markerIsNl u = false → 40 < (lastStrippedLine u).length →
      extractSignature u = some (lastStrippedLine u))
    ∧ (containsB markerIsNl u = false → ¬ 40 < (lastStrippedLine u).length →
      (splitAtNewlines u).find? (fun l2 => containsB subIs l2) = some l →
      l = pre ++ (subIs ++ suf) → containsB subIs pre = false →
      extractSignature u = some (trimL suf))
    ∧ (containsB markerIsNl u = false → ¬ 40 < (lastStrippedLine u).length →
      (splitAtNewlines u).find? (fun l2 => containsB subIs l2) = none →
      extractSignature u = none ∧ signContractDisplay u = .showsRaw u)
    ∧ extractSignature ("Signature is:\nABC123...".data) = some ("ABC123...".data)
    ∧ extractSignature ("no marker here\nshort line".data) = none
    ∧ signContractDisplay ("no marker here\nshort line".data) =
        .showsRaw ("no marker here\nshort line".data) := by
  refine ⟨?_, ?_, ?_, ?_, ?_, ?_, ?_⟩
  · intro hs ht
    rw [extractSignature, if_pos (contains_marker s t), split_marker s t hs ht]
    rw [List.getLastD_cons, List.getLastD_cons, List.getLastD_nil]
  · intro h1 h2
    rw [extractSignature, if_neg (by simp [h1]), if_pos h2]
  · intro h1 h2 hf hl hpre
    rw [extractSignature, if_neg (by simp [h1]), if_neg h2, hf, hl]
    simp [afterFirst_is3 pre suf hpre]
  · intro h1 h2 hf
    constructor
    · rw [extractSignature, if_neg (by simp [h1]), if_neg h2, hf]
    · rw [signContractDisplay, extractSignature, if_neg (by simp [h1]), if_neg h2, hf]
  · have ha := contains_marker ("Signature ".data) ("ABC123...".data)
    have hb := split_marker ("Signature ".data) ("ABC123...".data)
      (by decide) (by decide)
    rw [show ("Signature is:\nABC123...".data) =
        ("Signature ".data ++ (markerIsNl ++ "ABC123...".data)) by decide] at *
    rw [extractSignature, if_pos ha, hb, List.getLastD_cons, List.getLastD_cons]
    decide
  · rw [extractSignature,
      if_neg (by decide : ¬ containsB markerIsNl ("no marker here\nshort line".data) = true),
      if_neg (by decide :
        ¬ 40 < (lastStrippedLine ("no marker here\nshort line".data)).length)]
    have hf : (splitAtNewlines ("no marker here\nshort line".data)).find?
        (fun l2 => containsB subIs l2) = none := by decide
    rw [hf]
  · rw [signContractDisplay, extractSignature,
      if_neg (by decide : ¬ containsB markerIsNl ("no marker here\nshort line".data) = true),
      if_neg (by decide :
        ¬ 40 < (lastStrippedLine ("no marker here\nshort line".data)).length)]
    have hf : (splitAtNewlines ("no marker here\nshort line".data)).find?
        (fun l2 => containsB subIs l2) = none := by decide
    rw [hf]

/-- Claim C4, counterexample: the claim's own example fails on the other
cited implementation — `install.py`'s `_extract_signature` returns
not-found on `"Signature is:\nABC123..."` (the suffix after `"is:"` on the
first matching line is empty, so that line is skipped, and no fallback
line exceeds 40 characters), instead of the claimed `"ABC123..."`. -/
theorem C4_counterexample_install_variant :
    installExtractSignature ("Signature is:\nABC123...".data) = none
    ∧ (none : Option (List Char)) ≠ some ("ABC123...".data) := by
  constructor
  · decide
  · simp

/-- Witness for C4's amended theorem: each tier applied at a concrete
input with its hypotheses discharged. -/
theorem C4_signature_extraction_witness :
    extractSignature ("Signature ".data ++ (markerIsNl ++ "ABC123...".data)) =
      some (trimL ("ABC123...".data))
    ∧ extractSignature
        ("x\nAAAAABBBBBCCCCCDDDDDEEEEEFFFFFGGGGGHHHHHIIIII".data) =
      some (lastStrippedLine
        ("x\nAAAAABBBBBCCCCCDDDDDEEEEEFFFFFGGGGGHHHHHIIIII".data))
    ∧ extractSignature ("sig is: abc\nshort".data) = some (trimL (" abc".data))
    ∧ extractSignature ("no marker here\nshort line".data) = none :=
  ⟨(C4_signature_extraction ("Signature ".data) ("ABC123...".data)
      [] [] [] []).1 (by decide) (by decide),
   (C4_signature_extraction [] []
      ("x\nAAAAABBBBBCCCCCDDDDDEEEEEFFFFFGGGGGHHHHHIIIII".data)
      [] [] []).2.1 (by decide) (by decide),
   (C4_signature_extraction [] [] ("sig is: abc\nshort".data)
      ("sig is: abc".data) ("sig ".data) (" abc".data)).2.2.1
      (by decide) (by decide) (by decide) (by decide) (by decide),
   ((C4_signature_extraction [] [] ("no marker here\nshort line".data)
      [] [] []).2.2.2.1 (by decide) (by decide) (by decide)).1⟩

end NymNodeInstall
